import Mathlib

/-!
Verification of the unit-test-generator pipeline: a shallow embedding of the
adapter contract (`src/adapters/base.py`, `python_adapter.py`, `csharp_adapter.py`,
`java_adapter.py`) and the orchestration pipeline (`src/executors/pipeline_executor.py`).
Text is modelled as `List Char`; the specific regular expressions used by the code
are implemented directly with Python's leftmost, non-greedy semantics.
-/

/-- Text of the modelled program: a Python `str` as a list of characters. -/
abbrev Text := List Char

/-- Does `p` occur at the very start of `s`? Models Python `str.startswith`. -/
def isPre : Text → Text → Bool
  | [], _ => true
  | _ :: _, [] => false
  | p :: ps, c :: cs => p == c && isPre ps cs

/-- Does `p` occur anywhere inside `s`? Models Python `p in s`. -/
def hasSub (p : Text) : Text → Bool
  | [] => isPre p []
  | c :: rest => isPre p (c :: rest) || hasSub p rest

/-- Consume the literal `p` from the front of `s`, comparing case-insensitively
when `ci` is set (models a literal inside a pattern compiled with `re.IGNORECASE`).
Returns the remaining text on success. -/
def dropLit (ci : Bool) : Text → Text → Option Text
  | [], s => some s
  | _ :: _, [] => none
  | p :: ps, c :: cs =>
    if (if ci then p.toLower == c.toLower else p == c) then dropLit ci ps cs else none

/-- Text strictly before the first occurrence of `pat` in `s`, if `pat` occurs.
Models the non-greedy body `(.*?)` followed by the literal `pat` under `re.DOTALL`. -/
def beforeFirst (pat : Text) : Text → Option Text
  | [] => if isPre pat [] then some [] else none
  | c :: rest =>
    if isPre pat (c :: rest) then some []
    else (beforeFirst pat rest).map (fun t => c :: t)

/-- Try to match a fenced code block starting exactly here: three backticks, one of
the `tags` (in pattern order, case-insensitively when `ci`), a newline, then the
non-greedy body up to the first closing newline-plus-three-backticks. -/
def fenceAt (ci : Bool) (tags : List Text) (s : Text) : Option Text :=
  match dropLit false ("\x60\x60\x60".data) s with
  | none => none
  | some r1 =>
    tags.findSome? fun tag =>
      match dropLit ci (tag ++ ['\n']) r1 with
      | none => none
      | some r2 => beforeFirst ('\n' :: "\x60\x60\x60".data) r2

/-- Leftmost search for a fenced block: models `re.search` over the patterns the
adapters use (earliest starting position wins; alternatives tried in order). -/
def searchFence (ci : Bool) (tags : List Text) : Text → Option Text
  | [] => none
  | c :: rest =>
    match fenceAt ci tags (c :: rest) with
    | some b => some b
    | none => searchFence ci tags rest

/-- Test-code extraction of `PythonAdapter._generate_single_test`
(src/adapters/python_adapter.py, lines 84-88): one case-sensitive search for a
python-tagged fence, otherwise the whole response text.  There is no generic
untagged-fence tier. -/
def python_extract (t : Text) : Text :=
  match searchFence false ["python".data] t with
  | some b => b
  | none => t

/-- Test-code extraction of `JavaAdapter._generate_single_test`
(src/adapters/java_adapter.py, lines 52-63): case-insensitive java-tagged fence,
else first untagged fence, else the whole response text. -/
def java_extract (t : Text) : Text :=
  match searchFence true ["java".data] t with
  | some b => b
  | none =>
    match searchFence false [[]] t with
    | some b => b
    | none => t

/-- Test-code extraction of `CsAdapter._generate_single_test`
(src/adapters/csharp_adapter.py, lines 145-157): case-insensitive fence tagged
csharp, cs or c#, else first untagged fence, else the whole response text. -/
def cs_extract (t : Text) : Text :=
  match searchFence true ["csharp".data, "cs".data, "c#".data] t with
  | some b => b
  | none =>
    match searchFence false [[]] t with
    | some b => b
    | none => t

/-- Decimal digit characters, as produced by Python `str` on an integer. -/
def digitChar10 : Nat → Char
  | 0 => '0' | 1 => '1' | 2 => '2' | 3 => '3' | 4 => '4'
  | 5 => '5' | 6 => '6' | 7 => '7' | 8 => '8' | 9 => '9'
  | _ => '?'

/-- Numeric value of a decimal digit character (inverse of `digitChar10`). -/
def digitVal10 : Char → Nat
  | '0' => 0 | '1' => 1 | '2' => 2 | '3' => 3 | '4' => 4
  | '5' => 5 | '6' => 6 | '7' => 7 | '8' => 8 | '9' => 9
  | _ => 0

/-- Fuel-indexed decimal rendering of a natural number (the fuel only guarantees
structural recursion; any fuel above the value itself is enough). -/
def pyStrCore : Nat → Nat → Text
  | 0, _ => []
  | fuel + 1, n =>
    if n < 10 then [digitChar10 n]
    else pyStrCore fuel (n / 10) ++ [digitChar10 (n % 10)]

/-- Decimal rendering of a natural number: models Python `str(n)` / f-string
interpolation of a non-negative integer. -/
def pyStrNat (n : Nat) : Text := pyStrCore (n + 1) n

/-- Models Python `str(i)` on an arbitrary integer (sign, then decimal digits). -/
def pyStrInt : Int → Text
  | Int.ofNat n => pyStrNat n
  | Int.negSucc n => '-' :: pyStrNat (n + 1)

/-! ## Claim C1: the polymorphic contract between executor and adapters.

The executor dispatches by method name; Python resolves a call by looking the
name up on the instance's class (then its base class) and checking the number
of positional arguments.  We record, for each class in `src/adapters/`, the
methods it defines together with their positional arity (excluding self),
exactly as written in the source. -/

/-- Method names that occur in the adapter hierarchy and in the executor. -/
inductive Method
  | init_project
  | prepare_app_code
  | prepare_test_code
  | prepare_source_code
  | generate_single_test
  | generate_tests
  | execute_tests
  | generate_report
deriving DecidableEq

/-- Calls made by `PipelineExecutor.execute` (src/executors/pipeline_executor.py,
lines 18-45), with the number of positional arguments passed. -/
def executorInvokes : List (Method × Nat) :=
  [(Method.init_project, 1), (Method.prepare_app_code, 2), (Method.generate_tests, 1),
   (Method.prepare_test_code, 2), (Method.execute_tests, 0), (Method.generate_report, 1)]

/-- Call made by `LanguageAdapter._process_test_generation_batch` on each input
(src/adapters/base.py, line 52): one positional argument. -/
def batchInvokes : List (Method × Nat) :=
  [(Method.generate_single_test, 1)]

/-- Abstract methods declared on `LanguageAdapter` (src/adapters/base.py):
a subclass missing any of them cannot be instantiated under Python's ABC. -/
def baseAbstractMethods : List Method :=
  [Method.init_project, Method.execute_tests, Method.generate_single_test,
   Method.prepare_source_code, Method.prepare_test_code]

/-- Concrete methods `LanguageAdapter` itself provides, with their arity. -/
def baseConcreteDefines : List (Method × Nat) :=
  [(Method.generate_tests, 1), (Method.generate_report, 1)]

/-- Methods defined by `PythonAdapter` (src/adapters/python_adapter.py):
`init_project(self)` has zero further positional parameters,
`_generate_single_test(self, code, index)` has two. -/
def pythonAdapterDefines : List (Method × Nat) :=
  [(Method.init_project, 0), (Method.generate_single_test, 2),
   (Method.execute_tests, 0), (Method.generate_report, 1)]

/-- Methods defined by `CsAdapter` (src/adapters/csharp_adapter.py); same shape
as the Python adapter. -/
def csAdapterDefines : List (Method × Nat) :=
  [(Method.init_project, 0), (Method.generate_single_test, 2),
   (Method.execute_tests, 0), (Method.generate_report, 1)]

/-- Methods defined by `JavaAdapter` (src/adapters/java_adapter.py). -/
def javaAdapterDefines : List (Method × Nat) :=
  [(Method.init_project, 1), (Method.generate_single_test, 1),
   (Method.prepare_app_code, 2), (Method.prepare_test_code, 2),
   (Method.execute_tests, 0), (Method.generate_report, 1)]

/-- Attribute lookup for a call: the subclass's own definitions shadow the
base class's concrete ones.  Returns the arity the resolved method expects. -/
def resolves (defines : List (Method × Nat)) (m : Method) : Option Nat :=
  match defines.lookup m with
  | some k => some k
  | none => baseConcreteDefines.lookup m

/-- Every call in `calls` resolves on the class and expects exactly the number
of positional arguments passed. -/
def satisfiesCalls (defines : List (Method × Nat)) (calls : List (Method × Nat)) : Bool :=
  calls.all fun mk => resolves defines mk.1 == some mk.2

/-- A subclass of the ABC can be instantiated only if it overrides every
abstract method of the base class. -/
def instantiable (defines : List (Method × Nat)) : Bool :=
  baseAbstractMethods.all fun m => (defines.lookup m).isSome

/-! ## Claim C3: ordered fan-in of the concurrent generation batch. -/

/-- Run the completion of tasks in the order given by `sched`; the completion of
task `i` stores its own result in slot `i` (asyncio.gather places each task's
result at the task's position, not at its completion rank). -/
def runTasks (task : Nat → Text) : List Nat → (Nat → Option Text) → (Nat → Option Text)
  | [], slots => slots
  | i :: rest, slots =>
    runTasks task rest (fun j => if j = i then some (task i) else slots j)

/-- Result sequence of `LanguageAdapter._process_test_generation_batch`
(src/adapters/base.py, lines 47-54) when tasks complete in the order `sched`:
one task per input index, results read back by index. -/
def gatherModel (gen : Text → Text) (inputs : List Text) (sched : List Nat) :
    List (Option Text) :=
  (List.range inputs.length).map (runTasks (fun i => gen (inputs.getD i [])) sched (fun _ => none))

/-- Input type of `generate_tests`: a single code string or a list of them. -/
inductive CodeInput
  | single (s : Text)
  | batch (xs : List Text)
deriving DecidableEq

/-- Model of `LanguageAdapter.generate_tests` (src/adapters/base.py, lines 56-72)
with the single-unit generator abstracted as `gen` and the concurrent completion
order abstracted as `sched`. -/
def generate_tests (gen : Text → Text) (sched : List Nat) : CodeInput → CodeInput
  | CodeInput.single s => CodeInput.single (gen s)
  | CodeInput.batch xs => CodeInput.batch ((gatherModel gen xs sched).map (fun o => o.getD []))

/-! ## Claim C4: the report builders. -/

/-- One child element of the report: tag and text content. -/
structure XmlChild where
  tag : Text
  txt : Text
deriving DecidableEq

/-- Root element name shared by every report builder. -/
def report_root : Text := "test_report".data

/-- Status text: passed exactly when the toolchain exit code is zero. -/
def statusText (rc : Int) : Text := if rc = 0 then "passed".data else "failed".data

/-- Children of the report built by `LanguageAdapter.generate_report`
(src/adapters/base.py, lines 74-91), in document order. -/
def base_report_children (ts projectPath language : Text) (rc : Int) (stdout : Text) :
    List XmlChild :=
  [⟨"timestamp".data, ts⟩, ⟨"project_path".data, projectPath⟩,
   ⟨"language".data, language⟩, ⟨"return_code".data, pyStrInt rc⟩,
   ⟨"output".data, stdout⟩, ⟨"status".data, statusText rc⟩]

/-- Children of the report built by `JavaAdapter.generate_report`
(src/adapters/java_adapter.py, lines 195-212): language hard-coded to java. -/
def java_report_children (ts projectPath : Text) (rc : Int) (stdout : Text) :
    List XmlChild :=
  [⟨"timestamp".data, ts⟩, ⟨"project_path".data, projectPath⟩,
   ⟨"language".data, "java".data⟩, ⟨"return_code".data, pyStrInt rc⟩,
   ⟨"output".data, stdout⟩, ⟨"status".data, statusText rc⟩]

/-- Children of the report built by `CsAdapter.generate_report`
(src/adapters/csharp_adapter.py, lines 204-223): language hard-coded to csharp. -/
def cs_report_children (ts projectPath : Text) (rc : Int) (stdout : Text) :
    List XmlChild :=
  [⟨"timestamp".data, ts⟩, ⟨"project_path".data, projectPath⟩,
   ⟨"language".data, "csharp".data⟩, ⟨"return_code".data, pyStrInt rc⟩,
   ⟨"output".data, stdout⟩, ⟨"status".data, statusText rc⟩]

/-- Children of the report built by `PythonAdapter.generate_report`
(src/adapters/python_adapter.py, lines 129-147): note there is no language
child element in that method. -/
def python_report_children (ts projectPath : Text) (rc : Int) (stdout : Text) :
    List XmlChild :=
  [⟨"timestamp".data, ts⟩, ⟨"project_path".data, projectPath⟩,
   ⟨"return_code".data, pyStrInt rc⟩,
   ⟨"output".data, stdout⟩, ⟨"status".data, statusText rc⟩]

/-! ## Claim C5: the execute_tests precondition. -/

/-- Instance attributes relevant to the execute_tests entry checks.  The base
constructor sets only `project_path` (to None); the Java adapter constructor
also sets `app_path` and `tests_path` to None; `logger` is created only by the
Python and C# `init_project` bodies, so before that the attribute is absent. -/
structure AdapterAttrs where
  project_path : Option Text
  app_path : Option Text
  tests_path : Option Text
  hasLogger : Bool
deriving DecidableEq

/-- Exceptions the modelled entry checks can raise. -/
inductive PyExc
  | stateError (msg : Text)
  | attributeError (attr : Text)
deriving DecidableEq

/-- Entry check of `JavaAdapter.execute_tests` (src/adapters/java_adapter.py,
lines 97-100): an explicit guard raising RuntimeError when any path is unset. -/
def java_execute_entry (a : AdapterAttrs) : Except PyExc Unit :=
  if a.tests_path.isNone || a.app_path.isNone || a.project_path.isNone then
    Except.error (PyExc.stateError "Project not initialized. Call init_project first.".data)
  else Except.ok ()

/-- Entry of `PythonAdapter.execute_tests` (src/adapters/python_adapter.py,
line 105): the first statement dereferences `self.logger`, which exists only
after `init_project`; there is no explicit state guard. -/
def python_execute_entry (a : AdapterAttrs) : Except PyExc Unit :=
  if a.hasLogger then Except.ok () else Except.error (PyExc.attributeError "logger".data)

/-- Entry of `CsAdapter.execute_tests` (src/adapters/csharp_adapter.py,
line 169): same shape as the Python adapter, no explicit state guard. -/
def cs_execute_entry (a : AdapterAttrs) : Except PyExc Unit :=
  if a.hasLogger then Except.ok () else Except.error (PyExc.attributeError "logger".data)

/-- Attributes of a freshly constructed `JavaAdapter` (its constructor sets all
three paths to None and never creates a logger). -/
def java_fresh : AdapterAttrs := ⟨none, none, none, false⟩

/-- Attributes of a freshly constructed `PythonAdapter` or `CsAdapter`. -/
def scripting_fresh : AdapterAttrs := ⟨none, none, none, false⟩

/-- Attributes of a `JavaAdapter` right after `init_project` returned: all three
paths set (Java's init_project configures no logger). -/
def java_inited (proj app tests : Text) : AdapterAttrs := ⟨some proj, some app, some tests, false⟩

/-! ## Claims C6 and C10: multi-step toolchain execution. -/

/-- Outcome of one external process invocation: exit code and combined output. -/
structure StepResult where
  rc : Int
  out : Text
deriving DecidableEq

/-- Steps of the C# toolchain. -/
inductive CsStep
  | restore
  | test
deriving DecidableEq

/-- Model of the toolchain part of `CsAdapter.execute_tests`
(src/adapters/csharp_adapter.py, lines 171-202): dotnet restore, then dotnet
test only if restore exited zero.  Returns the execution result together with
the list of steps actually invoked. -/
def cs_execute_tests (restoreR testR : StepResult) : (Int × Text) × List CsStep :=
  if restoreR.rc ≠ 0 then ((restoreR.rc, restoreR.out), [CsStep.restore])
  else ((testR.rc, testR.out), [CsStep.restore, CsStep.test])

/-- Steps of the Java toolchain. -/
inductive JavaStep
  | compileSrc
  | compileTests
  | runClass (cls : Text)
deriving DecidableEq

/-- Environment of one `JavaAdapter.execute_tests` run: the files found by the
two globs and the outcome each external process would produce. -/
structure JavaEnv where
  srcFiles : List Text
  testClasses : List Text
  compileSrcR : StepResult
  compileTestsR : StepResult
  runR : Text → StepResult

/-- The per-class run loop of `JavaAdapter.execute_tests` (lines 163-191):
run each test class in order, append its output, stop at the first non-zero
exit.  Returns final exit code, the collected outputs, and the classes run. -/
def java_run_loop (runR : Text → StepResult) : List Text → Int × List Text × List JavaStep
  | [] => (0, [], [])
  | c :: cs =>
    let r := runR c
    if r.rc ≠ 0 then (r.rc, [r.out], [JavaStep.runClass c])
    else
      let rest := java_run_loop runR cs
      (rest.1, r.out :: rest.2.1, JavaStep.runClass c :: rest.2.2)

/-- Python `"\n".join(xs)`. -/
def joinNL (xs : List Text) : Text := List.intercalate ['\n'] xs

/-- Model of the toolchain part of `JavaAdapter.execute_tests`
(src/adapters/java_adapter.py, lines 102-193): empty src short-circuits with
exit code 1; source compilation failure short-circuits; with test files, test
compilation failure short-circuits, otherwise each test class runs in order
stopping at the first failure; with no test files the result is 0/No tests
found.  Returns the result and the steps actually invoked. -/
def java_execute_tests (env : JavaEnv) : (Int × Text) × List JavaStep :=
  if env.srcFiles = [] then ((1, "No source files found in src directory".data), [])
  else if env.compileSrcR.rc ≠ 0 then
    ((env.compileSrcR.rc, "Compilation failed:\n".data ++ env.compileSrcR.out),
     [JavaStep.compileSrc])
  else if env.testClasses ≠ [] then
    if env.compileTestsR.rc ≠ 0 then
      ((env.compileTestsR.rc, "Test compilation failed:\n".data ++ env.compileTestsR.out),
       [JavaStep.compileSrc, JavaStep.compileTests])
    else
      let r := java_run_loop env.runR env.testClasses
      ((r.1, joinNL r.2.1), [JavaStep.compileSrc, JavaStep.compileTests] ++ r.2.2)
  else ((0, "No tests found".data), [JavaStep.compileSrc])

/-! ## Claim C7: filenames produced by the Java adapter's prepare steps. -/

/-- Python regex word character, restricted to the ASCII range the inputs use. -/
def wordChar (c : Char) : Bool := c.isAlphanum || c == '_'

/-- Python regex whitespace. -/
def pyWs (c : Char) : Bool :=
  c == ' ' || c == '\t' || c == '\n' || c == '\r' || c == '\x0b' || c == '\x0c'

/-- Match the pattern public-whitespace-class-whitespace-word starting exactly
here and return the captured word (the greedy maximal run of word characters). -/
def classNameAt (s : Text) : Option Text :=
  match dropLit false "public".data s with
  | none => none
  | some r1 =>
    let ws1 := r1.takeWhile pyWs
    if ws1 = [] then none
    else
      match dropLit false "class".data (r1.dropWhile pyWs) with
      | none => none
      | some r2 =>
        let ws2 := r2.takeWhile pyWs
        if ws2 = [] then none
        else
          let name := (r2.dropWhile pyWs).takeWhile wordChar
          if name = [] then none else some name

/-- Leftmost search for the class-name pattern: models
`re.search(public-class-word, code)` in `JavaAdapter.prepare_app_code`. -/
def findPublicClass : Text → Option Text
  | [] => none
  | c :: rest =>
    match classNameAt (c :: rest) with
    | some n => some n
    | none => findPublicClass rest

/-- `JavaAdapter.prepare_app_code` (src/adapters/java_adapter.py, lines 67-80):
filename from the public class name when one is found, otherwise the index
convention Main.java / Module-index-.java. -/
def prepare_app_code (code : Text) (index : Nat) : Text × Text :=
  match findPublicClass code with
  | some name => (code, name ++ ".java".data)
  | none =>
    (code, if index > 0 then "Module".data ++ pyStrNat index ++ ".java".data
           else "Main.java".data)

/-- `JavaAdapter.prepare_test_code` (src/adapters/java_adapter.py, lines 82-95):
same introspection, with the MainTest / Module-index-Test fallback. -/
def prepare_test_code (test_code : Text) (index : Nat) : Text × Text :=
  match findPublicClass test_code with
  | some name => (test_code, name ++ ".java".data)
  | none =>
    (test_code, if index > 0 then "Module".data ++ pyStrNat index ++ "Test.java".data
                else "MainTest.java".data)

/-- The executor's write loop (src/executors/pipeline_executor.py, lines 24-27
and 34-39): enumerate the codes from index `k`, prepare each, and record the
(filename, content) writes in order. -/
def writeLoop (prep : Text → Nat → Text × Text) : List Text → Nat → List (Text × Text)
  | [], _ => []
  | c :: cs, k =>
    let p := prep c k
    (p.2, p.1) :: writeLoop prep cs (k + 1)

/-- Filenames and contents written into the source directory for the given
submitted snippets (one write per snippet, indices from 0). -/
def source_write_list (codes : List Text) : List (Text × Text) :=
  writeLoop prepare_app_code codes 0

/-- Filenames and contents written into the test directory for the given
generated test bodies (one write per unit, indices from 0). -/
def test_write_list (testCodes : List Text) : List (Text × Text) :=
  writeLoop prepare_test_code testCodes 0

/-- Write one file into a directory modelled as an association list: an
existing filename is overwritten in place, a new one is appended. -/
def writeFile (dir : List (Text × Text)) (fn content : Text) : List (Text × Text) :=
  if fn ∈ dir.map Prod.fst then
    dir.map (fun p => if p.1 = fn then (fn, content) else p)
  else dir ++ [(fn, content)]

/-- Apply a list of writes to a directory in order. -/
def applyWrites (dir : List (Text × Text)) : List (Text × Text) → List (Text × Text)
  | [] => dir
  | w :: ws => applyWrites (writeFile dir w.1 w.2) ws

/-! ## Claim C8: project roots created by init_project. -/

/-- Project directory created by `PythonAdapter.init_project` for the
timestamp `ts` (src/adapters/python_adapter.py, lines 19-23). -/
def python_init_path (workDir ts : Text) : Text :=
  workDir ++ ('/' :: ("project_".data ++ ts))

/-- Project directory created by `CsAdapter.init_project`
(src/adapters/csharp_adapter.py, lines 18-22). -/
def cs_init_path (workDir ts : Text) : Text :=
  workDir ++ ('/' :: ("cs_project_".data ++ ts))

/-- Project directory created by `JavaAdapter.init_project`
(src/adapters/java_adapter.py, lines 21-25). -/
def java_init_path (workDir ts : Text) : Text :=
  workDir ++ ('/' :: ("java_project_".data ++ ts))

/-- Python `Path.mkdir(exist_ok=True)`: creating an existing directory is a
silent no-op, never an error. -/
def mkdirExistOk (fs : List Text) (p : Text) : List Text :=
  if p ∈ fs then fs else p :: fs

/-- Directory-creating effect of `JavaAdapter.init_project` on the set of
existing directories, returning the project path it yields. -/
def java_init_project (fs : List Text) (workDir ts : Text) : Text × List Text :=
  let proj := java_init_path workDir ts
  let fs1 := mkdirExistOk fs proj
  let fs2 := mkdirExistOk fs1 (proj ++ "/src".data)
  let fs3 := mkdirExistOk fs2 (proj ++ "/tests".data)
  (proj, fs3)

/-! ## Claim C9: the C# using-directive preamble. -/

/-- Python `str.strip()` over the ASCII whitespace the inputs use. -/
def pyStrip (s : Text) : Text :=
  ((s.dropWhile pyWs).reverse.dropWhile pyWs).reverse

/-- Python `code.split(newline)`: split into lines, preserving empties. -/
def splitLines : Text → List Text
  | [] => [[]]
  | c :: rest =>
    if c = '\n' then [] :: splitLines rest
    else
      match splitLines rest with
      | l :: ls => (c :: l) :: ls
      | [] => [[c]]

/-- The literal the C# adapter tests for and inserts. -/
def usingSystemLit : Text := "using System;".data

/-- Line classifier used by the regrouping branch: a stripped line starting
with using-and-a-space. -/
def isUsingLine (l : Text) : Bool := isPre "using ".data (pyStrip l)

/-- `add_using_directives` from `CsAdapter.init_project`
(src/adapters/csharp_adapter.py, lines 69-93): leave code containing the
literal unchanged; prepend the literal to code not starting with using;
otherwise partition the lines into using lines and other lines, prepend the
literal when no using line contains it, and join using lines, one blank line,
then the other lines. -/
def add_using_directives (code : Text) : Text :=
  if hasSub usingSystemLit code then code
  else if !(isPre "using".data (pyStrip code)) then
    usingSystemLit ++ ('\n' :: '\n' :: code)
  else
    let lines := splitLines code
    let usingLines := lines.filter isUsingLine
    let otherLines := lines.filter (fun l => !(isUsingLine l))
    let foundSystem := usingLines.any (fun l => hasSub usingSystemLit l)
    let usingLines2 := if foundSystem then usingLines else usingSystemLit :: usingLines
    List.intercalate ['\n'] (usingLines2 ++ [[]] ++ otherLines)

/-! ## Helper definitions used by the verification statements. -/

/-- Numeric value of a decimal digit string (left fold). -/
def textVal (t : Text) : Nat := t.foldl (fun a c => 10 * a + digitVal10 c) 0

/-- Index-convention source filename (the no-public-class fallback of
`prepare_app_code`). -/
def appConv (i : Nat) : Text :=
  if i > 0 then "Module".data ++ pyStrNat i ++ ".java".data else "Main.java".data

/-- Index-convention test filename (the no-public-class fallback of
`prepare_test_code`). -/
def testConv (i : Nat) : Text :=
  if i > 0 then "Module".data ++ pyStrNat i ++ "Test.java".data else "MainTest.java".data

/-- Occurrence of `p` somewhere inside `s`, as a proposition. -/
def InfixOf (p s : Text) : Prop := ∃ a b, s = a ++ p ++ b

/-- Line sequence produced by the regrouping branch of `add_using_directives`:
the inserted literal, then the original using lines, a blank line, and the
remaining lines. -/
def regroupList (code : Text) : List Text :=
  usingSystemLit :: ((splitLines code).filter isUsingLine
    ++ [[]] ++ (splitLines code).filter (fun l => !(isUsingLine l)))

/-! ## Supporting lemmas. -/

theorem dropLit_isPre {p s r : Text} (h : dropLit false p s = some r) : isPre p s = true := by
  induction p generalizing s r with
  | nil => cases s <;> rfl
  | cons x xs ih =>
    cases s with
    | nil => simp [dropLit] at h
    | cons c cs =>
      simp only [dropLit] at h
      by_cases hx : x == c
      · simp only [isPre, hx, Bool.true_and]
        simp only [hx, if_true] at h
        exact ih h
      · simp [hx] at h

theorem fenceAt_none_of_no_ticks {ci : Bool} {tags : List Text} {s : Text}
    (h : isPre "\x60\x60\x60".data s = false) : fenceAt ci tags s = none := by
  unfold fenceAt
  cases hd : dropLit false ("\x60\x60\x60".data) s with
  | none => rfl
  | some r => exact absurd (dropLit_isPre hd) (by simp [h])

theorem searchFence_none_of_no_ticks (ci : Bool) (tags : List Text) :
    ∀ {t : Text}, hasSub "\x60\x60\x60".data t = false → searchFence ci tags t = none := by
  intro t
  induction t with
  | nil => intro _; rfl
  | cons c cs ih =>
    intro h
    simp only [hasSub, Bool.or_eq_false_iff] at h
    unfold searchFence
    rw [fenceAt_none_of_no_ticks h.1, ih h.2]

/-! ## Claim C1. -/

/-- C1: the claim asserts that every adapter variant provides the operations the
executor invokes with the signatures the executor uses, so that execute performs
the full run without raising.  Evaluating the method tables transcribed from the
source shows the opposite: no adapter overrides the abstract prepare_source_code
(so none is even instantiable under the ABC), the Python and C# adapters resolve
neither prepare_app_code nor an init_project of the arity the executor calls,
and only the Java adapter's table matches every call the executor and the batch
helper make. -/
theorem c1_contract_violation :
    instantiable pythonAdapterDefines = false
  ∧ instantiable csAdapterDefines = false
  ∧ instantiable javaAdapterDefines = false
  ∧ resolves pythonAdapterDefines Method.prepare_app_code = none
  ∧ resolves csAdapterDefines Method.prepare_app_code = none
  ∧ resolves pythonAdapterDefines Method.init_project = some 0
  ∧ satisfiesCalls pythonAdapterDefines (executorInvokes ++ batchInvokes) = false
  ∧ satisfiesCalls csAdapterDefines (executorInvokes ++ batchInvokes) = false
  ∧ satisfiesCalls javaAdapterDefines (executorInvokes ++ batchInvokes) = true := by
  decide

/-! ## Claim C2. -/

/-- C2: counterexample to the claim as stated.  The Python adapter has no
untagged-fence tier (a response whose only fence is untagged comes back whole),
its tag match is case-sensitive (a Python-capitalized tag is not recognized),
and extraction can return empty text on a non-empty response (an empty tagged
block), contradicting the three-tier/never-empty claim. -/
theorem c2_counterexample :
    python_extract "\x60\x60\x60\nX\n\x60\x60\x60".data = "\x60\x60\x60\nX\n\x60\x60\x60".data
  ∧ python_extract "\x60\x60\x60Python\nY\n\x60\x60\x60".data
      = "\x60\x60\x60Python\nY\n\x60\x60\x60".data
  ∧ java_extract "\x60\x60\x60java\n\n\x60\x60\x60".data = []
  ∧ "\x60\x60\x60java\n\n\x60\x60\x60".data ≠ [] := by
  decide

/-- C2 (amended): extraction is total for every adapter.  The Java and C#
extractors follow the three-tier priority (tagged fence, then first untagged
fence, then the whole response); the Python extractor has only two tiers (a
case-sensitive python-tagged fence, then the whole response); and when the
response contains no fence delimiter at all every extractor returns the
response verbatim. -/
theorem c2_amended_extraction (t : Text) :
    ((∃ b, searchFence true ["java".data] t = some b ∧ java_extract t = b)
      ∨ (searchFence true ["java".data] t = none
          ∧ ((∃ b, searchFence false [[]] t = some b ∧ java_extract t = b)
              ∨ (searchFence false [[]] t = none ∧ java_extract t = t))))
  ∧ ((∃ b, searchFence true ["csharp".data, "cs".data, "c#".data] t = some b ∧ cs_extract t = b)
      ∨ (searchFence true ["csharp".data, "cs".data, "c#".data] t = none
          ∧ ((∃ b, searchFence false [[]] t = some b ∧ cs_extract t = b)
              ∨ (searchFence false [[]] t = none ∧ cs_extract t = t))))
  ∧ ((∃ b, searchFence false ["python".data] t = some b ∧ python_extract t = b)
      ∨ (searchFence false ["python".data] t = none ∧ python_extract t = t))
  ∧ (hasSub "\x60\x60\x60".data t = false →
      java_extract t = t ∧ cs_extract t = t ∧ python_extract t = t) := by
  refine ⟨?_, ?_, ?_, ?_⟩
  · cases h1 : searchFence true ["java".data] t with
    | some b => exact Or.inl ⟨b, rfl, by simp [java_extract, h1]⟩
    | none =>
      refine Or.inr ⟨rfl, ?_⟩
      cases h2 : searchFence false [[]] t with
      | some b => exact Or.inl ⟨b, rfl, by simp [java_extract, h1, h2]⟩
      | none => exact Or.inr ⟨rfl, by simp [java_extract, h1, h2]⟩
  · cases h1 : searchFence true ["csharp".data, "cs".data, "c#".data] t with
    | some b => exact Or.inl ⟨b, rfl, by simp [cs_extract, h1]⟩
    | none =>
      refine Or.inr ⟨rfl, ?_⟩
      cases h2 : searchFence false [[]] t with
      | some b => exact Or.inl ⟨b, rfl, by simp [cs_extract, h1, h2]⟩
      | none => exact Or.inr ⟨rfl, by simp [cs_extract, h1, h2]⟩
  · cases h1 : searchFence false ["python".data] t with
    | some b => exact Or.inl ⟨b, rfl, by simp [python_extract, h1]⟩
    | none => exact Or.inr ⟨rfl, by simp [python_extract, h1]⟩
  · intro h
    have hj := searchFence_none_of_no_ticks true ["java".data] h
    have hcs := searchFence_none_of_no_ticks true ["csharp".data, "cs".data, "c#".data] h
    have hg := searchFence_none_of_no_ticks false [[]] h
    have hp := searchFence_none_of_no_ticks false ["python".data] h
    exact ⟨by simp [java_extract, hj, hg], by simp [cs_extract, hcs, hg],
           by simp [python_extract, hp]⟩

/-- C2 (witness): a fence-free response is returned verbatim by all three
extractors, by the amended theorem at a concrete input. -/
theorem c2_amended_extraction_witness :
    hasSub "\x60\x60\x60".data "plain text answer".data = false
  ∧ (java_extract "plain text answer".data = "plain text answer".data
      ∧ cs_extract "plain text answer".data = "plain text answer".data
      ∧ python_extract "plain text answer".data = "plain text answer".data) :=
  ⟨by decide, (c2_amended_extraction "plain text answer".data).2.2.2 (by decide)⟩

/-! ## Claim C3. -/

theorem runTasks_not_mem (task : Nat → Text) :
    ∀ (sched : List Nat) (slots : Nat → Option Text) (j : Nat),
      j ∉ sched → runTasks task sched slots j = slots j := by
  intro sched
  induction sched with
  | nil => intro slots j _; rfl
  | cons i rest ih =>
    intro slots j hj
    have hji : j ≠ i := fun h => hj (h ▸ List.mem_cons_self i rest)
    have hjr : j ∉ rest := fun h => hj (List.mem_cons_of_mem i h)
    simp only [runTasks]
    rw [ih _ j hjr]
    simp [hji]

theorem runTasks_mem (task : Nat → Text) :
    ∀ (sched : List Nat) (slots : Nat → Option Text) (j : Nat),
      j ∈ sched → runTasks task sched slots j = some (task j) := by
  intro sched
  induction sched with
  | nil => intro slots j hj; simp at hj
  | cons i rest ih =>
    intro slots j hj
    by_cases hjr : j ∈ rest
    · simp only [runTasks]
      exact ih _ j hjr
    · have hji : j = i := by
        rcases List.mem_cons.mp hj with h | h
        · exact h
        · exact absurd h hjr
      subst hji
      simp only [runTasks]
      rw [runTasks_not_mem task rest _ j hjr]
      simp

/-- C3: batch test generation is extensionally the sequential map.  For every
generator, every input list and every completion order of the concurrent tasks
(any permutation of the task indices), `generate_tests` on a list input returns
the list of single-unit generation results in input order, so position i of the
output always corresponds to position i of the input. -/
theorem c3_ordered_gather (gen : Text → Text) (inputs : List Text) (sched : List Nat)
    (h : sched.Perm (List.range inputs.length)) :
    generate_tests gen sched (CodeInput.batch inputs) = CodeInput.batch (inputs.map gen)
  ∧ (inputs.map gen).length = inputs.length := by
  refine ⟨?_, by simp⟩
  simp only [generate_tests, gatherModel]
  congr 1
  rw [List.map_map]
  apply List.ext_getElem (by simp)
  intro k h1 h2
  have hk : k < inputs.length := by simpa using h2
  have hmem : k ∈ sched := h.mem_iff.mpr (List.mem_range.mpr (by simpa using hk))
  simp only [List.getElem_map, List.getElem_range, Function.comp]
  rw [runTasks_mem _ _ _ _ (by simpa using hmem)]
  simp only [Option.getD_some]
  congr 1
  rw [List.getD_eq_getElem?_getD, List.getElem?_eq_getElem (by simpa using hk)]
  rfl

/-- C3 (witness): a three-element batch completing in the order 2, 0, 1 still
yields the results in input order, by the theorem at a concrete input. -/
theorem c3_ordered_gather_witness :
    List.Perm [2, 0, 1] (List.range 3)
  ∧ generate_tests (fun t => 'G' :: t) [2, 0, 1]
      (CodeInput.batch ["a".data, "b".data, "c".data])
      = CodeInput.batch (["a".data, "b".data, "c".data].map (fun t => 'G' :: t)) :=
  ⟨by decide,
   (c3_ordered_gather (fun t => 'G' :: t) ["a".data, "b".data, "c".data] [2, 0, 1]
     (by decide)).1⟩

/-! ## Claim C4. -/

/-- C4: counterexample to the claim as stated.  The report produced by the
Python adapter's own generate_report (the override the pipeline dispatches to
for the Python variant) has no language child element at all. -/
theorem c4_counterexample :
    ¬ ("language".data
        ∈ (python_report_children "ts".data "p".data 0 "out".data).map XmlChild.tag) := by
  decide

/-- C4 (amended): the base, Java and C# report builders emit exactly the six
children timestamp, project_path, language, return_code, output, status, with
return_code the exit code rendered as text, output the raw toolchain output,
and status equal to passed exactly when the exit code is zero (including
negative codes); the Python adapter's override emits the same children except
that language is missing. -/
theorem c4_amended_report (ts pp lang out : Text) (rc : Int) :
    (base_report_children ts pp lang rc out).map XmlChild.tag
      = ["timestamp".data, "project_path".data, "language".data,
         "return_code".data, "output".data, "status".data]
  ∧ java_report_children ts pp rc out = base_report_children ts pp "java".data rc out
  ∧ cs_report_children ts pp rc out = base_report_children ts pp "csharp".data rc out
  ∧ (python_report_children ts pp rc out).map XmlChild.tag
      = ["timestamp".data, "project_path".data,
         "return_code".data, "output".data, "status".data]
  ∧ XmlChild.mk "return_code".data (pyStrInt rc) ∈ base_report_children ts pp lang rc out
  ∧ XmlChild.mk "output".data out ∈ base_report_children ts pp lang rc out
  ∧ XmlChild.mk "status".data (statusText rc) ∈ python_report_children ts pp rc out
  ∧ (statusText rc = "passed".data ↔ rc = 0)
  ∧ report_root = "test_report".data := by
  refine ⟨rfl, rfl, rfl, rfl, by simp [base_report_children],
    by simp [base_report_children], by simp [python_report_children], ?_, rfl⟩
  by_cases h : rc = 0
  · simp [statusText, h]
  · have hst : statusText rc = "failed".data := by simp [statusText, h]
    rw [hst]
    constructor
    · intro he
      exact absurd he (by decide)
    · intro he
      exact absurd he h

/-! ## Claim C5. -/

/-- C5: counterexample to the claim as stated.  Called before init_project, the
Python and C# adapters' execute_tests fail with an attribute error on the unset
logger, not with the StateError guard; and after init_project (the Initialized
state) the Java guard passes, so execute_tests is not invalid there. -/
theorem c5_counterexample :
    python_execute_entry scripting_fresh
      = Except.error (PyExc.attributeError "logger".data)
  ∧ cs_execute_entry scripting_fresh
      = Except.error (PyExc.attributeError "logger".data)
  ∧ java_execute_entry (java_inited "proj".data "app".data "tests".data) = Except.ok () :=
  ⟨rfl, rfl, rfl⟩

/-- C5 (amended): only the Java adapter guards execute_tests with the
StateError (RuntimeError) precondition when init_project has not run; the
Python and C# adapters instead fail with an AttributeError on the logger
attribute their init_project would have created; and once init_project has set
the three paths the Java guard passes. -/
theorem c5_amended_guard :
    java_execute_entry java_fresh
      = Except.error
          (PyExc.stateError "Project not initialized. Call init_project first.".data)
  ∧ python_execute_entry scripting_fresh
      = Except.error (PyExc.attributeError "logger".data)
  ∧ cs_execute_entry scripting_fresh
      = Except.error (PyExc.attributeError "logger".data)
  ∧ ∀ proj app tests : Text,
      java_execute_entry (java_inited proj app tests) = Except.ok () :=
  ⟨rfl, rfl, rfl, fun _ _ _ => rfl⟩

/-! ## Claim C6. -/

theorem java_run_loop_halt (runR : Text → StepResult) :
    ∀ (pre : List Text) (c : Text) (post : List Text),
      (∀ x ∈ pre, (runR x).rc = 0) → (runR c).rc ≠ 0 →
      java_run_loop runR (pre ++ c :: post)
        = ((runR c).rc, pre.map (fun x => (runR x).out) ++ [(runR c).out],
           pre.map JavaStep.runClass ++ [JavaStep.runClass c]) := by
  intro pre
  induction pre with
  | nil =>
    intro c post _ hc
    simp [java_run_loop, hc]
  | cons x xs ih =>
    intro c post h0 hc
    have hx : (runR x).rc = 0 := h0 x (List.mem_cons_self x xs)
    have hrest := ih c post (fun y hy => h0 y (List.mem_cons_of_mem x hy)) hc
    simp [java_run_loop, hx, hrest]

/-- C6: multi-step toolchains short-circuit.  For the C# adapter, a failing
dotnet restore returns its exit code and output without invoking dotnet test;
for the Java adapter, a failing source compilation stops before test
compilation, a failing test compilation stops before any test class runs, and
a failing test class returns its exit code with the output accumulated so far
and prevents the remaining classes from running. -/
theorem c6_short_circuit :
    (∀ restoreR testR : StepResult, restoreR.rc ≠ 0 →
        cs_execute_tests restoreR testR = ((restoreR.rc, restoreR.out), [CsStep.restore]))
  ∧ (∀ env : JavaEnv, env.srcFiles ≠ [] → env.compileSrcR.rc ≠ 0 →
        java_execute_tests env
          = ((env.compileSrcR.rc, "Compilation failed:\n".data ++ env.compileSrcR.out),
             [JavaStep.compileSrc]))
  ∧ (∀ env : JavaEnv, env.srcFiles ≠ [] → env.compileSrcR.rc = 0 →
        env.testClasses ≠ [] → env.compileTestsR.rc ≠ 0 →
        java_execute_tests env
          = ((env.compileTestsR.rc,
              "Test compilation failed:\n".data ++ env.compileTestsR.out),
             [JavaStep.compileSrc, JavaStep.compileTests]))
  ∧ (∀ (env : JavaEnv) (pre : List Text) (c : Text) (post : List Text),
        env.srcFiles ≠ [] → env.compileSrcR.rc = 0 → env.compileTestsR.rc = 0 →
        env.testClasses = pre ++ c :: post →
        (∀ x ∈ pre, (env.runR x).rc = 0) → (env.runR c).rc ≠ 0 →
        java_execute_tests env
          = (((env.runR c).rc,
              joinNL (pre.map (fun x => (env.runR x).out) ++ [(env.runR c).out])),
             [JavaStep.compileSrc, JavaStep.compileTests]
               ++ pre.map JavaStep.runClass ++ [JavaStep.runClass c])) := by
  refine ⟨?_, ?_, ?_, ?_⟩
  · intro r t h
    simp [cs_execute_tests, h]
  · intro env h1 h2
    simp [java_execute_tests, h1, h2]
  · intro env h1 h2 h3 h4
    simp [java_execute_tests, h1, h2, h3, h4]
  · intro env pre c post h1 h2 h3 hcl hpre hc
    have hloop := java_run_loop_halt env.runR pre c post hpre hc
    simp [java_execute_tests, h1, h2, h3, hcl, hloop]

/-- C6 (witness): concrete instantiations of all four short-circuit cases. -/
theorem c6_short_circuit_witness :
    cs_execute_tests ⟨1, "restore error".data⟩ ⟨0, "test output".data⟩
      = ((1, "restore error".data), [CsStep.restore])
  ∧ java_execute_tests
      ⟨["A.java".data], ["T1".data], ⟨2, "src error".data⟩, ⟨0, []⟩, fun _ => ⟨0, []⟩⟩
      = ((2, "Compilation failed:\nsrc error".data), [JavaStep.compileSrc])
  ∧ java_execute_tests
      ⟨["A.java".data], ["T1".data], ⟨0, []⟩, ⟨5, "tc error".data⟩, fun _ => ⟨0, []⟩⟩
      = ((5, "Test compilation failed:\ntc error".data),
         [JavaStep.compileSrc, JavaStep.compileTests])
  ∧ java_execute_tests
      ⟨["A.java".data], ["T1".data, "T2".data, "T3".data], ⟨0, []⟩, ⟨0, []⟩,
       fun c => if c = "T2".data then ⟨3, "fail".data⟩ else ⟨0, "ok".data⟩⟩
      = ((3, joinNL ["ok".data, "fail".data]),
         [JavaStep.compileSrc, JavaStep.compileTests,
          JavaStep.runClass "T1".data, JavaStep.runClass "T2".data]) := by
  refine ⟨c6_short_circuit.1 _ _ (by decide), c6_short_circuit.2.1 _ (by decide) (by decide),
    c6_short_circuit.2.2.1 _ (by decide) rfl (by decide) (by decide), ?_⟩
  exact c6_short_circuit.2.2.2
    ⟨["A.java".data], ["T1".data, "T2".data, "T3".data], ⟨0, []⟩, ⟨0, []⟩,
     fun c => if c = "T2".data then ⟨3, "fail".data⟩ else ⟨0, "ok".data⟩⟩
    ["T1".data] "T2".data ["T3".data]
    (by decide) rfl rfl rfl (by decide) (by decide)

/-! ## Claim C10. -/

/-- C10: counterexample to the claim as stated.  With an empty test directory
but a source file that fails to compile, the Java adapter's execute_tests does
not return 0/No tests found: it returns the compiler's exit code. -/
theorem c10_counterexample :
    java_execute_tests
      ⟨["A.java".data], [], ⟨2, "boom".data⟩, ⟨0, []⟩, fun _ => ⟨0, []⟩⟩
      = ((2, "Compilation failed:\nboom".data), [JavaStep.compileSrc]) := by
  decide

/-- C10 (amended): the Java adapter handles empty directories without raising.
With no source files, execute_tests returns exit code 1 and an explanatory
message before invoking anything; with source files that compile and no test
files, it returns exit code 0 with output No tests found, which the report
builder maps to status passed. -/
theorem c10_amended_java_empty :
    (∀ env : JavaEnv, env.srcFiles = [] →
        java_execute_tests env
          = ((1, "No source files found in src directory".data), []))
  ∧ (∀ env : JavaEnv, env.srcFiles ≠ [] → env.compileSrcR.rc = 0 →
        env.testClasses = [] →
        java_execute_tests env = ((0, "No tests found".data), [JavaStep.compileSrc]))
  ∧ statusText 0 = "passed".data := by
  refine ⟨?_, ?_, rfl⟩
  · intro env h
    simp [java_execute_tests, h]
  · intro env h1 h2 h3
    simp [java_execute_tests, h1, h2, h3]

/-- C10 (witness): both branches of the amended theorem at concrete inputs. -/
theorem c10_amended_java_empty_witness :
    java_execute_tests ⟨[], [], ⟨0, []⟩, ⟨0, []⟩, fun _ => ⟨0, []⟩⟩
      = ((1, "No source files found in src directory".data), [])
  ∧ java_execute_tests ⟨["A.java".data], [], ⟨0, "cout".data⟩, ⟨0, []⟩, fun _ => ⟨0, []⟩⟩
      = ((0, "No tests found".data), [JavaStep.compileSrc]) :=
  ⟨c10_amended_java_empty.1 _ rfl,
   c10_amended_java_empty.2.1 _ (by decide) rfl rfl⟩

/-! ## Claim C7. -/

theorem digitVal_digitChar (d : Nat) (h : d < 10) : digitVal10 (digitChar10 d) = d := by
  interval_cases d <;> rfl

theorem textVal_append_digit (s : Text) (c : Char) :
    textVal (s ++ [c]) = 10 * textVal s + digitVal10 c := by
  simp [textVal, List.foldl_append]

theorem textVal_pyStrCore : ∀ fuel n, n < fuel → textVal (pyStrCore fuel n) = n := by
  intro fuel
  induction fuel with
  | zero => intro n h; omega
  | succ f ih =>
    intro n h
    by_cases h10 : n < 10
    · have hd := digitVal_digitChar n h10
      simp [pyStrCore, h10, textVal, hd]
    · have hn0 : 0 < n := by omega
      have hdiv : n / 10 < n := Nat.div_lt_self hn0 (by omega)
      have hdf : n / 10 < f := by omega
      rw [pyStrCore]
      simp only [h10, if_false]
      rw [textVal_append_digit, ih (n / 10) hdf,
        digitVal_digitChar (n % 10) (Nat.mod_lt n (by omega))]
      omega

theorem pyStrNat_inj {m n : Nat} (h : pyStrNat m = pyStrNat n) : m = n := by
  have hm := textVal_pyStrCore (m + 1) m (by omega)
  have hn := textVal_pyStrCore (n + 1) n (by omega)
  rw [pyStrNat, pyStrNat] at h
  rw [← hm, ← hn, h]

theorem appConv_inj : Function.Injective appConv := by
  intro i j h
  by_contra hne
  rcases Nat.eq_zero_or_pos i with hi | hi
  · subst hi
    have hj : 0 < j := Nat.pos_of_ne_zero (fun hz => hne (by rw [hz]))
    rw [appConv, appConv, if_neg (by omega), if_pos hj] at h
    have h2 : (some 'a' : Option Char) = some 'o' := congrArg (fun l => l.get? 1) h
    exact absurd h2 (by decide)
  · rcases Nat.eq_zero_or_pos j with hj | hj
    · subst hj
      rw [appConv, appConv, if_pos hi, if_neg (by omega)] at h
      have h2 : (some 'o' : Option Char) = some 'a' := congrArg (fun l => l.get? 1) h
      exact absurd h2 (by decide)
    · rw [appConv, appConv, if_pos hi, if_pos hj] at h
      have h1 := List.append_cancel_right h
      have h2 := List.append_cancel_left h1
      exact hne (pyStrNat_inj h2)

theorem testConv_inj : Function.Injective testConv := by
  intro i j h
  by_contra hne
  rcases Nat.eq_zero_or_pos i with hi | hi
  · subst hi
    have hj : 0 < j := Nat.pos_of_ne_zero (fun hz => hne (by rw [hz]))
    rw [testConv, testConv, if_neg (by omega), if_pos hj] at h
    have h2 : (some 'a' : Option Char) = some 'o' := congrArg (fun l => l.get? 1) h
    exact absurd h2 (by decide)
  · rcases Nat.eq_zero_or_pos j with hj | hj
    · subst hj
      rw [testConv, testConv, if_pos hi, if_neg (by omega)] at h
      have h2 : (some 'o' : Option Char) = some 'a' := congrArg (fun l => l.get? 1) h
      exact absurd h2 (by decide)
    · rw [testConv, testConv, if_pos hi, if_pos hj] at h
      have h1 := List.append_cancel_right h
      have h2 := List.append_cancel_left h1
      exact hne (pyStrNat_inj h2)

theorem writeLoop_length (prep : Text → Nat → Text × Text) :
    ∀ (codes : List Text) (k : Nat), (writeLoop prep codes k).length = codes.length := by
  intro codes
  induction codes with
  | nil => intro k; rfl
  | cons c cs ih => intro k; simp [writeLoop, ih]

theorem writeLoop_app_names :
    ∀ (codes : List Text) (k : Nat), (∀ c ∈ codes, findPublicClass c = none) →
      (writeLoop prepare_app_code codes k).map Prod.fst
        = (List.range' k codes.length).map appConv := by
  intro codes
  induction codes with
  | nil => intro k _; rfl
  | cons c cs ih =>
    intro k h
    have hc : findPublicClass c = none := h c (List.mem_cons_self c cs)
    have hrest := ih (k + 1) (fun y hy => h y (List.mem_cons_of_mem c hy))
    simp [writeLoop, prepare_app_code, hc, List.range'_succ, hrest, appConv]

theorem writeLoop_test_names :
    ∀ (codes : List Text) (k : Nat), (∀ c ∈ codes, findPublicClass c = none) →
      (writeLoop prepare_test_code codes k).map Prod.fst
        = (List.range' k codes.length).map testConv := by
  intro codes
  induction codes with
  | nil => intro k _; rfl
  | cons c cs ih =>
    intro k h
    have hc : findPublicClass c = none := h c (List.mem_cons_self c cs)
    have hrest := ih (k + 1) (fun y hy => h y (List.mem_cons_of_mem c hy))
    simp [writeLoop, prepare_test_code, hc, List.range'_succ, hrest, testConv]

theorem writeFile_new (dir : List (Text × Text)) (fn content : Text)
    (h : fn ∉ dir.map Prod.fst) : writeFile dir fn content = dir ++ [(fn, content)] := by
  simp [writeFile, h]

theorem applyWrites_length_nodup :
    ∀ (ws dir : List (Text × Text)), (ws.map Prod.fst).Nodup →
      (∀ k ∈ ws.map Prod.fst, k ∉ dir.map Prod.fst) →
      (applyWrites dir ws).length = dir.length + ws.length := by
  intro ws
  induction ws with
  | nil => intro dir _ _; simp [applyWrites]
  | cons w ws ih =>
    intro dir hnd hdisj
    have hw : w.1 ∉ dir.map Prod.fst := hdisj w.1 (by simp)
    rw [List.map_cons] at hnd
    have hnd2 := (List.nodup_cons.mp hnd).2
    have hhead := (List.nodup_cons.mp hnd).1
    rw [applyWrites, writeFile_new dir w.1 w.2 hw, ih _ hnd2]
    · simp
      omega
    · intro k hk
      simp only [List.map_append, List.mem_append]
      rintro (hk1 | hk2)
      · exact hdisj k (by simp [hk]) hk1
      · simp at hk2
        exact hhead (hk2 ▸ hk)

/-- C7: counterexample to the claim as stated.  Two distinct snippets that both
declare a public class named Foo are prepared to the same filename, so the two
source writes collide and the directory ends up with a single file instead of
two; distinctness of filenames for distinct indices fails under introspection. -/
theorem c7_counterexample :
    ¬ (((source_write_list
          ["public class Foo a".data, "public class Foo b".data]).map Prod.fst).Nodup)
  ∧ (source_write_list ["public class Foo a".data, "public class Foo b".data]).length = 2
  ∧ (applyWrites []
      (source_write_list ["public class Foo a".data, "public class Foo b".data])).length
      = 1 := by
  decide

/-- C7 (amended): the pipeline performs exactly N source writes and N test
writes for N submitted units; whenever no snippet matches the public-class
pattern the fallback index convention makes the filenames pairwise distinct,
and pairwise-distinct writes produce exactly N files; but introspection-derived
names can coincide for distinct indices (see the counterexample), in which case
a later write overwrites an earlier file. -/
theorem c7_amended_files :
    (∀ codes : List Text, (source_write_list codes).length = codes.length
      ∧ (test_write_list codes).length = codes.length)
  ∧ (∀ codes : List Text, (∀ c ∈ codes, findPublicClass c = none) →
      ((source_write_list codes).map Prod.fst).Nodup
      ∧ ((test_write_list codes).map Prod.fst).Nodup)
  ∧ (∀ writes : List (Text × Text), (writes.map Prod.fst).Nodup →
      (applyWrites [] writes).length = writes.length) := by
  refine ⟨?_, ?_, ?_⟩
  · intro codes
    exact ⟨writeLoop_length prepare_app_code codes 0, writeLoop_length prepare_test_code codes 0⟩
  · intro codes h
    constructor
    · rw [source_write_list, writeLoop_app_names codes 0 h]
      exact (List.nodup_range' _ _).map appConv_inj
    · rw [test_write_list, writeLoop_test_names codes 0 h]
      exact (List.nodup_range' _ _).map testConv_inj
  · intro writes hnd
    have := applyWrites_length_nodup writes [] hnd (by simp)
    simpa using this

/-- C7 (witness): two fallback-named units yield two distinct filenames in each
directory and exactly two files, by the amended theorem at concrete inputs. -/
theorem c7_amended_files_witness :
    (∀ c ∈ ["int x;".data, "int y;".data], findPublicClass c = none)
  ∧ ((source_write_list ["int x;".data, "int y;".data]).map Prod.fst).Nodup
  ∧ ((test_write_list ["int x;".data, "int y;".data]).map Prod.fst).Nodup
  ∧ (applyWrites [] (source_write_list ["int x;".data, "int y;".data])).length = 2 := by
  refine ⟨by decide, (c7_amended_files.2.1 _ (by decide)).1,
    (c7_amended_files.2.1 _ (by decide)).2, ?_⟩
  exact (c7_amended_files.2.2 _ ((c7_amended_files.2.1 _ (by decide)).1)).trans (by decide)

/-! ## Claim C8. -/

/-- C8: counterexample to the claim as stated.  The project name carries only a
second-granularity timestamp and no sequence number, so two init_project calls
in the same second yield the same project directory, and the second call (with
mkdir exist_ok) silently reuses it: the filesystem is left unchanged and the
same root is returned. -/
theorem c8_counterexample :
    (java_init_project [] "storage".data "20250101_120000".data).1
      = (java_init_project (java_init_project [] "storage".data "20250101_120000".data).2
          "storage".data "20250101_120000".data).1
  ∧ (java_init_project (java_init_project [] "storage".data "20250101_120000".data).2
        "storage".data "20250101_120000".data).2
      = (java_init_project [] "storage".data "20250101_120000".data).2 := by
  decide

/-- C8 (amended): repeated init_project calls create distinct project roots
exactly when their second-granularity timestamps differ; for each adapter
variant, distinct timestamps give distinct directories, while two calls within
the same second return the same directory, silently reused without error. -/
theorem c8_amended_distinct :
    (∀ wd ts1 ts2 : Text, ts1 ≠ ts2 →
        java_init_path wd ts1 ≠ java_init_path wd ts2
      ∧ cs_init_path wd ts1 ≠ cs_init_path wd ts2
      ∧ python_init_path wd ts1 ≠ python_init_path wd ts2)
  ∧ (∀ fs wd ts, (java_init_project fs wd ts).1 = java_init_path wd ts) := by
  constructor
  · intro wd ts1 ts2 h
    refine ⟨?_, ?_, ?_⟩ <;> intro he <;> apply h
    · have h1 := List.append_cancel_left he
      have h2 := List.cons_injective.eq_iff.mp h1
      exact List.append_cancel_left h2
    · have h1 := List.append_cancel_left he
      have h2 := List.cons_injective.eq_iff.mp h1
      exact List.append_cancel_left h2
    · have h1 := List.append_cancel_left he
      have h2 := List.cons_injective.eq_iff.mp h1
      exact List.append_cancel_left h2
  · intro fs wd ts
    rfl

/-- C8 (witness): two timestamps one second apart give distinct Java project
roots, by the amended theorem at concrete inputs. -/
theorem c8_amended_distinct_witness :
    "20250101_120000".data ≠ "20250101_120001".data
  ∧ java_init_path "storage".data "20250101_120000".data
      ≠ java_init_path "storage".data "20250101_120001".data :=
  ⟨by decide,
   (c8_amended_distinct.1 "storage".data "20250101_120000".data "20250101_120001".data
     (by decide)).1⟩

/-! ## Claim C9. -/

theorem isPre_exists : ∀ p s : Text, isPre p s = true ↔ ∃ t, s = p ++ t := by
  intro p
  induction p with
  | nil => intro s; simp [isPre]
  | cons x xs ih =>
    intro s
    cases s with
    | nil => simp [isPre]
    | cons c cs =>
      simp only [isPre, Bool.and_eq_true, beq_iff_eq]
      constructor
      · rintro ⟨hx, hp⟩
        rcases (ih cs).mp hp with ⟨t, ht⟩
        exact ⟨t, by simp [hx, ht]⟩
      · rintro ⟨t, ht⟩
        simp only [List.cons_append, List.cons.injEq] at ht
        exact ⟨ht.1.symm, (ih cs).mpr ⟨t, ht.2⟩⟩

theorem hasSub_iff_infixOf : ∀ s p : Text, hasSub p s = true ↔ InfixOf p s := by
  intro s
  induction s with
  | nil =>
    intro p
    simp only [hasSub, isPre_exists, InfixOf]
    constructor
    · rintro ⟨t, ht⟩
      exact ⟨[], t, by simpa using ht⟩
    · rintro ⟨a, b, hab⟩
      have ha : a = [] := by
        cases a with
        | nil => rfl
        | cons y ys => simp at hab
      subst ha
      exact ⟨b, by simpa using hab⟩
  | cons c cs ih =>
    intro p
    simp only [hasSub, Bool.or_eq_true]
    constructor
    · rintro (hp | hp)
      · rcases (isPre_exists p (c :: cs)).mp hp with ⟨t, ht⟩
        exact ⟨[], t, by simpa using ht⟩
      · rcases (ih p).mp hp with ⟨a, b, hab⟩
        exact ⟨c :: a, b, by simp [hab]⟩
    · rintro ⟨a, b, hab⟩
      cases a with
      | nil =>
        exact Or.inl ((isPre_exists p (c :: cs)).mpr ⟨b, by simpa using hab⟩)
      | cons y ys =>
        simp only [List.cons_append, List.cons.injEq] at hab
        exact Or.inr ((ih p).mpr ⟨ys, b, hab.2⟩)

theorem infixOf_trans {p q s : Text} (h1 : InfixOf p q) (h2 : InfixOf q s) : InfixOf p s := by
  rcases h1 with ⟨a, b, hab⟩
  rcases h2 with ⟨c, d, hcd⟩
  exact ⟨c ++ a, b ++ d, by simp [hcd, hab]⟩

theorem splitLines_chunks :
    ∀ s : Text, (∃ h t, splitLines s = h :: t ∧ ∃ b, s = h ++ b)
      ∧ ∀ l ∈ splitLines s, InfixOf l s := by
  intro s
  induction s with
  | nil =>
    refine ⟨⟨[], [], rfl, [], rfl⟩, ?_⟩
    intro l hl
    simp only [splitLines, List.mem_singleton] at hl
    exact ⟨[], [], by simp [hl]⟩
  | cons c cs ih =>
    rcases ih with ⟨⟨h, t, hsplit, b, hb⟩, hmem⟩
    by_cases hc : c = '\n'
    · subst hc
      constructor
      · exact ⟨[], splitLines cs, by simp [splitLines], '\n' :: cs, rfl⟩
      · intro l hl
        have hsp2 : splitLines ('\n' :: cs) = [] :: splitLines cs := by
          simp [splitLines]
        rw [hsp2] at hl
        rcases List.mem_cons.mp hl with hl | hl
        · exact ⟨[], '\n' :: cs, by simp [hl]⟩
        · rcases hmem l hl with ⟨a, b2, hab⟩
          exact ⟨'\n' :: a, b2, by simp [hab]⟩
    · have hsp : splitLines (c :: cs) = (c :: h) :: t := by
        simp [splitLines, hc, hsplit]
      constructor
      · exact ⟨c :: h, t, hsp, b, by simp [hb]⟩
      · intro l hl
        rw [hsp] at hl
        rcases List.mem_cons.mp hl with hl | hl
        · exact ⟨[], b, by simp [hl, hb]⟩
        · have hlr : l ∈ splitLines cs := by
            rw [hsplit]
            exact List.mem_cons_of_mem h hl
          rcases hmem l hlr with ⟨a, b2, hab⟩
          exact ⟨c :: a, b2, by simp [hab]⟩

theorem no_sub_in_lines {pat code : Text} (h : hasSub pat code = false) :
    ∀ l ∈ splitLines code, hasSub pat l = false := by
  intro l hl
  by_contra hne
  have hline : hasSub pat l = true := by
    cases hv : hasSub pat l with
    | true => rfl
    | false => exact absurd hv hne
  have h1 : InfixOf pat l := (hasSub_iff_infixOf l pat).mp hline
  have h2 : InfixOf l code := (splitLines_chunks code).2 l hl
  have h3 : InfixOf pat code := infixOf_trans h1 h2
  rw [(hasSub_iff_infixOf code pat).mpr h3] at h
  exact absurd h (by decide)

/-- C9: counterexample to the claim as stated.  For code that starts with a
using directive and interleaves another using line after a non-using line, the
insertion regroups the lines: the original line sequence is not a subsequence
of the result, so the interleaving of using lines with other lines is not
preserved. -/
theorem c9_counterexample :
    ¬ List.Sublist (splitLines "using A;\nclass X\nusing B;".data)
        (splitLines (add_using_directives "using A;\nclass X\nusing B;".data)) := by
  decide

/-- C9 (amended): the preamble is added only when absent, and code containing
the literal is written unchanged; code not starting with a using directive gets
the literal prepended with a blank line, preserving the original text intact;
but code starting with a using directive is regrouped: all using lines are
hoisted above all other lines (the relative order within each group is
preserved and every original line is kept, with the literal first and one blank
line separating the groups), so the original interleaving of using lines with
other lines is not preserved. -/
theorem c9_amended_usings :
    (∀ code, hasSub usingSystemLit code = true → add_using_directives code = code)
  ∧ (∀ code, hasSub usingSystemLit code = false →
      isPre "using".data (pyStrip code) = false →
      add_using_directives code = usingSystemLit ++ ('\n' :: '\n' :: code))
  ∧ (∀ code, hasSub usingSystemLit code = false →
      isPre "using".data (pyStrip code) = true →
      add_using_directives code = List.intercalate ['\n'] (regroupList code)
      ∧ (regroupList code).head? = some usingSystemLit
      ∧ List.Sublist ((splitLines code).filter isUsingLine) (regroupList code)
      ∧ List.Sublist ((splitLines code).filter (fun l => !(isUsingLine l))) (regroupList code)
      ∧ List.Perm (regroupList code) (usingSystemLit :: [] :: splitLines code)) := by
  refine ⟨?_, ?_, ?_⟩
  · intro code h
    simp [add_using_directives, h]
  · intro code h1 h2
    simp [add_using_directives, h1, h2]
  · intro code h1 h2
    have hfs : ((splitLines code).filter isUsingLine).any
        (fun l => hasSub usingSystemLit l) = false := by
      rw [List.any_eq_false]
      intro x hx
      have hx2 : x ∈ splitLines code := List.mem_of_mem_filter hx
      simp [no_sub_in_lines h1 x hx2]
    refine ⟨?_, rfl, ?_, ?_, ?_⟩
    · simp [add_using_directives, h1, h2, hfs, regroupList]
    · refine List.Sublist.cons _ ?_
      rw [List.append_assoc]
      exact List.sublist_append_left _ _
    · exact List.Sublist.cons _ (List.sublist_append_right _ _)
    · refine List.Perm.cons _ ?_
      have hp1 : (((splitLines code).filter isUsingLine) ++ [([] : Text)]).Perm
          ([([] : Text)] ++ (splitLines code).filter isUsingLine) :=
        List.perm_append_comm
      have hp2 := hp1.append_right ((splitLines code).filter (fun l => !(isUsingLine l)))
      exact hp2.trans (List.Perm.cons _ (List.filter_append_perm _ _))

/-- C9 (witness): all three branches of the amended theorem at concrete inputs:
code already containing the literal, code not starting with using, and code
starting with using that gets regrouped. -/
theorem c9_amended_usings_witness :
    add_using_directives "code with using System; inside".data
      = "code with using System; inside".data
  ∧ add_using_directives "class X".data
      = usingSystemLit ++ ('\n' :: '\n' :: "class X".data)
  ∧ (add_using_directives "using A;\nclass X\nusing B;".data
      = List.intercalate ['\n'] (regroupList "using A;\nclass X\nusing B;".data)
    ∧ (regroupList "using A;\nclass X\nusing B;".data).head? = some usingSystemLit
    ∧ List.Sublist ((splitLines "using A;\nclass X\nusing B;".data).filter isUsingLine)
        (regroupList "using A;\nclass X\nusing B;".data)
    ∧ List.Sublist
        ((splitLines "using A;\nclass X\nusing B;".data).filter (fun l => !(isUsingLine l)))
        (regroupList "using A;\nclass X\nusing B;".data)
    ∧ List.Perm (regroupList "using A;\nclass X\nusing B;".data)
        (usingSystemLit :: [] :: splitLines "using A;\nclass X\nusing B;".data)) :=
  ⟨c9_amended_usings.1 _ (by decide),
   c9_amended_usings.2.1 _ (by decide) (by decide),
   c9_amended_usings.2.2 _ (by decide) (by decide)⟩
